import Mathlib

/-!
Shallow embedding of the incremental-memoization cache of this repository.

The authoritative source is `src/dyn-cache/src/namespace.rs` (`KeyMiss`,
`Hashed`, `Namespace` with `hashed`/`entry`/`entry_mut`/`get`/`store` and the
`Gc` implementation `mark`/`sweep`).  The cache cell and dependency-node
modules (`cache_cell.rs`, `dep_node.rs`) are referenced by that file but are
not among the examined sources, so they are modelled from the specification
(spec sections 3, 4.2, 4.3, 4.4, 8 and 9); each such definition carries a
doc comment starting with "Modelled from the spec:".

Modelling conventions:
- the hashbrown `HashMap<Scope, CacheCell, H>` is an association list of
  scope/cell pairs plus the pure hash function `Scope -> Nat` that the
  `BuildHasher` computes (the `u64` hash is abstracted to `Nat`; the claims
  only depend on determinism and on how often the hash function runs);
- interior mutability of a cell reached through a shared borrow is modelled
  by returning the updated namespace;
- allocation freshness of a `DepNode` is modelled by an explicit `freshId`
  argument;
- the number of invocations of the key's hash function is instrumented by
  threading a `calls : Nat` counter (the spec's "instrumented hasher"); the
  counter also charges the rehash hashbrown's `RawVacantEntryMut::insert`
  performs — `store`'s vacant arm calls plain `insert`, not
  `insert_hashed_nocheck`, and `insert` rebuilds a hasher from the map's
  build hasher and rehashes the key before inserting;
- the lookup key and input argument are monomorphised to `Scope` and
  `Input` (Rust permits any borrow-compatible stand-in types);
- a Rust panic (the debug assertion in `store`'s occupied arm, active in
  the debug profile the spec describes as "asserts (fatal)", and the
  `expect` in its vacant arm) is modelled as an `Except.error` result; a
  panicking `store` mutates nothing, as in the source both fire before any
  mutation of the map.
-/

set_option autoImplicit false
set_option linter.unusedVariables false

namespace DynCache

variable {Scope Input Output Key : Type}

/-- Liveness flag of a cache cell: `Live` means proven live as of the last
mark, `Dead` is the conservative per-pass baseline.  `namespace.rs` imports
it from the crate root; the spec fixes it to exactly these two states. -/
inductive Liveness where
  | Live
  | Dead
deriving DecidableEq

/-- Modelled from the spec: `Dependent` (dep_node.rs is not among the
examined sources).  A cloneable, non-owning handle to a `DepNode` (weak
reference, identity only, never lifetime control); `target = none` models
the default handle of an external caller that is not itself a node of the
dependency forest. -/
structure Dependent where
  target : Option Nat
deriving DecidableEq

/-- Modelled from the spec: `DepNode` (dep_node.rs is not among the examined
sources).  One allocation per cache-entry lifetime identity; `id` models the
allocation identity and `dependents` the recorded needed-by edges. -/
structure DepNode where
  id : Nat
  dependents : List Dependent
deriving DecidableEq

/-- Modelled from the spec: `DepNode::new()` allocates a fresh parentless
node; freshness of the allocation is modelled by the caller passing an
otherwise unused `freshId`. -/
def DepNode.new (freshId : Nat) : DepNode :=
  { id := freshId, dependents := [] }

/-- Modelled from the spec: `DepNode::root(dependent)` attaches the node
under an existing `Dependent`. -/
def DepNode.root (n : DepNode) (d : Dependent) : DepNode :=
  { n with dependents := d :: n.dependents }

/-- Modelled from the spec: `DepNode::as_dependent()` produces the handle
that other lookups pass downward; it references this node. -/
def DepNode.as_dependent (n : DepNode) : Dependent :=
  { target := some n.id }

/-- Modelled from the spec: `CacheCell` (cache_cell.rs is not among the
examined sources).  Owns the last-used input, the last-produced output, a
liveness flag, and the `DepNode` that is this entry's identity in the
dependency forest. -/
structure CacheCell (Input Output : Type) where
  input : Input
  output : Output
  liveness : Liveness
  node : DepNode
deriving DecidableEq

/-- Modelled from the spec: `CacheCell::new`, the cell inserted on first
store of a scope.  Liveness starts at the conservative per-pass baseline
`Dead`: the spec's "collection of the unused" scenario sweeps a
stored-then-untouched scope at the very first mark+sweep pair, and section
4.2 makes "not yet proven live" the baseline every cell starts a pass
from. -/
def CacheCell.new (input : Input) (output : Output) (node : DepNode) :
    CacheCell Input Output :=
  { input := input, output := output, liveness := Liveness.Dead, node := node }

/-- Modelled from the spec: `CacheCell::get` (spec section 4.2).  Compares
the argument against the stored input; on equality it registers the
dependent against this cell's node and returns the stored output, on
inequality it returns the cell's current `Dependent` (not the caller's) so
the caller can refresh the cell while reusing its identity.  A hit also
re-proves the cell live for the current pass: per-pass re-registration
through `get` is what keeps an entry alive (spec sections 4.4 and 8,
"retention of the used"; the exact reachability walk is unobservable per
section 9's open question). -/
def CacheCell.get [DecidableEq Input] (c : CacheCell Input Output)
    (input : Input) (dependent : Dependent) :
    Except Dependent Output × CacheCell Input Output :=
  if input = c.input then
    (Except.ok c.output,
      { c with liveness := Liveness.Live, node := c.node.root dependent })
  else
    (Except.error c.node.as_dependent, c)

/-- Modelled from the spec: `CacheCell::store` (spec section 4.2).
Unconditionally overwrites input and output, resets the liveness to the
per-pass-fresh baseline `Dead`, and records the dependent against the cell's
unchanged node. -/
def CacheCell.store (c : CacheCell Input Output) (input : Input)
    (output : Output) (dependent : Dependent) : CacheCell Input Output :=
  { input := input, output := output, liveness := Liveness.Dead,
    node := c.node.root dependent }

/-- Modelled from the spec: `CacheCell::update_liveness` (spec section 4.2),
invoked during mark; recomputes whether the cell is reachable this pass and
records `Live` or `Dead`.  The precise graph walk is explicitly not
observable (spec section 9, open question); here a cell is reachable exactly
when it was re-registered by a cache hit since the last sweep, which the
liveness flag already records, so recomputation normalises the flag. -/
def CacheCell.update_liveness (c : CacheCell Input Output) :
    CacheCell Input Output :=
  { c with
    liveness := if c.liveness = Liveness.Live then Liveness.Live else Liveness.Dead }

/-- Modelled from the spec: `CacheCell::mark_dead` forcibly demotes the cell
to the conservative "not yet proven live" baseline; used on every survivor
of a sweep. -/
def CacheCell.mark_dead (c : CacheCell Input Output) : CacheCell Input Output :=
  { c with liveness := Liveness.Dead }

/-- A query key that was hashed as part of an initial lookup (`Hashed` in
namespace.rs, lines 44-51); pairs the borrowed key with its precomputed
hash so the same key is never hashed twice between a failed read and the
following write. -/
structure Hashed (Key : Type) where
  key : Key
  hash : Nat
deriving DecidableEq

instance {e a : Type} [DecidableEq e] [DecidableEq a] : DecidableEq (Except e a) := fun
  | Except.ok x, Except.ok y =>
    if h : x = y then Decidable.isTrue (by rw [h]) else Decidable.isFalse (by simp [h])
  | Except.ok _, Except.error _ => Decidable.isFalse (by simp)
  | Except.error _, Except.ok _ => Decidable.isFalse (by simp)
  | Except.error x, Except.error y =>
    if h : x = y then Decidable.isTrue (by rw [h]) else Decidable.isFalse (by simp [h])

/-- The result of failing to find a key in a cache with matching input
(`KeyMiss` in namespace.rs, lines 19-25).  `inner` is Rust's
`Result<Hashed<&K, H>, &K>`: `Except.ok` carries the already-hashed key,
`Except.error` the raw key.  `dependent` is the handle to attach to whatever
gets stored, and `node` is the freshly created `DepNode` that `store` must
consume, present exactly when no entry previously existed. -/
structure KeyMiss (Key : Type) where
  inner : Except Key (Hashed Key)
  dependent : Dependent
  node : Option DepNode
deriving DecidableEq

/-- Embeds `KeyMiss::hashed` (namespace.rs lines 28-30). -/
def KeyMiss.hashed (h : Hashed Key) (node : Option DepNode)
    (dependent : Dependent) : KeyMiss Key :=
  { inner := Except.ok h, node := node, dependent := dependent }

/-- Embeds `KeyMiss::just_key` (namespace.rs lines 32-37): a miss built from a bare
key; creates a fresh node, roots it under the caller's dependent, and
derives the miss's own dependent from that node. -/
def KeyMiss.just_key (k : Key) (dependent : Dependent) (freshId : Nat) :
    KeyMiss Key :=
  let node := (DepNode.new freshId).root dependent
  { inner := Except.error k, dependent := node.as_dependent, node := some node }

/-- The lookup key a miss targets: the hashed key when the miss carries one,
the raw key otherwise.  Model-level accessor used to state theorems. -/
def KeyMiss.key : KeyMiss Key → Key
  | { inner := Except.ok h, .. } => h.key
  | { inner := Except.error k, .. } => k

/-- The hash invocations `store` spends recovering the miss's hash before
probing (namespace.rs line 134): none when the miss carries a precomputed
`Hashed`, one when it carries a bare key. -/
def KeyMiss.probeHashes : KeyMiss Key → Nat
  | { inner := Except.ok _, .. } => 0
  | { inner := Except.error _, .. } => 1

/-- A namespace stores all cached values for a particular query type
(`Namespace` in namespace.rs, lines 53-56).  The hashbrown map with
build-hasher `H` is modelled as an association list of scope/cell pairs
plus the pure hash function the build hasher computes. -/
structure Namespace (Scope Input Output : Type) where
  hashFn : Scope → Nat
  inner : List (Scope × CacheCell Input Output)

/-- Embeds `Namespace::hashed` (lines 74-81): build a hasher, feed the key, keep
the finished hash next to the key.  `calls` counts the invocations of the
key's hash function (the spec's "instrumented hasher"). -/
def Namespace.hashed (ns : Namespace Scope Input Output) (key : Scope)
    (calls : Nat) : Hashed Scope × Nat :=
  ({ key := key, hash := ns.hashFn key }, calls + 1)

/-- Embeds `Namespace::entry` (lines 83-92): probe the map at the precomputed hash
with key equality.  `raw_entry().from_hash(hash, eq)` under the map's own
deterministic hasher finds exactly the entry whose scope equals the probed
key, which the association-list model realises as an equality search. -/
def Namespace.entry [DecidableEq Scope] (ns : Namespace Scope Input Output)
    (hashed : Hashed Scope) : Option (Scope × CacheCell Input Output) :=
  ns.inner.find? (fun p => decide (p.1 = hashed.key))

/-- Write-back of a mutated cell at a scope: the effect of mutating through
the occupied arm of `Namespace::entry_mut` (lines 94-103), which probes with
the same hash-and-equality predicate as `entry`. -/
def Namespace.setCell [DecidableEq Scope] (ns : Namespace Scope Input Output)
    (key : Scope) (c : CacheCell Input Output) : Namespace Scope Input Output :=
  { ns with inner := ns.inner.map (fun p => if p.1 = key then (p.1, c) else p) }

/-- Embeds `Namespace::get` (lines 105-126): hash the key once, probe; if an entry
exists delegate to the cell's `get`, turning a stale-input failure into a
node-less `KeyMiss` that reuses the hash and carries the cell's own
dependent; if no entry exists, eagerly allocate a fresh node, root it under
the caller-supplied dependent, and return a miss carrying that node and a
dependent derived from it. -/
def Namespace.get [DecidableEq Scope] [DecidableEq Input]
    (ns : Namespace Scope Input Output) (key : Scope) (input : Input)
    (dependent : Dependent) (freshId : Nat) (calls : Nat) :
    Except (KeyMiss Scope) Output × Namespace Scope Input Output × Nat :=
  let hc := ns.hashed key calls
  match ns.entry hc.1 with
  | some (_, cell) =>
    match cell.get input dependent with
    | (Except.ok out, cell1) => (Except.ok out, ns.setCell key cell1, hc.2)
    | (Except.error d, _) => (Except.error (KeyMiss.hashed hc.1 none d), ns, hc.2)
  | none =>
    let node := (DepNode.new freshId).root dependent
    (Except.error (KeyMiss.hashed hc.1 (some node) node.as_dependent), ns, hc.2)

/-- The two panics `Namespace::store` can hit: the debug assertion
"mustn't create nodes that aren't used" in the occupied arm (line 137) and
the `expect` "if no cell present, we must have created a fresh node" in the
vacant arm (line 146). -/
inductive StorePanic where
  | assertNodeUnused
  | expectFreshNode
deriving DecidableEq

/-- Embeds `Namespace::store` (lines 128-151): recover the hash from the miss (or
hash the bare key), re-probe at that hash and equality.  If occupied, assert
fatally that the miss carries no freshly created node, then overwrite the
cell's input/output and record the new dependent; if vacant, insert a new
cell owning the miss's fresh node, panicking if the miss carries none.
Either panic fires before the map is mutated, and the `expect` panic fires
while the arguments of the vacant insert are evaluated, before the insert
itself runs.  The vacant insert charges one more hash invocation: line 141
calls hashbrown's plain `RawVacantEntryMut::insert` (not
`insert_hashed_nocheck`), which rebuilds a hasher from the map's build
hasher and rehashes the key before inserting. -/
def Namespace.store [DecidableEq Scope] (ns : Namespace Scope Input Output)
    (miss : KeyMiss Scope) (input : Input) (output : Output) (calls : Nat) :
    Except StorePanic (Namespace Scope Input Output) × Nat :=
  let dependent := miss.dependent
  let hc : Hashed Scope × Nat :=
    match miss.inner with
    | Except.ok h => (h, calls)
    | Except.error k => ns.hashed k calls
  match ns.entry hc.1 with
  | some (_, cell) =>
    match miss.node with
    | some _ => (Except.error StorePanic.assertNodeUnused, hc.2)
    | none =>
      (Except.ok (ns.setCell hc.1.key (cell.store input output dependent)), hc.2)
  | none =>
    match miss.node with
    | some node =>
      (Except.ok
        { ns with inner := ns.inner ++ [(hc.1.key, CacheCell.new input output node)] },
       hc.2 + 1)
    | none => (Except.error StorePanic.expectFreshNode, hc.2)

/-- Embeds `Gc::mark` for `Namespace` (lines 161-163): update every cell's
liveness. -/
def Namespace.mark (ns : Namespace Scope Input Output) :
    Namespace Scope Input Output :=
  { ns with inner := ns.inner.map (fun p => (p.1, p.2.update_liveness)) }

/-- Embeds `Gc::sweep` for `Namespace` (lines 165-171): retain exactly the cells
currently `Live`, demoting every retained cell to `Dead` so survivors start
the next pass from the conservative baseline. -/
def Namespace.sweep (ns : Namespace Scope Input Output) :
    Namespace Scope Input Output :=
  { ns with inner := ns.inner.filterMap (fun p =>
      let is_live := p.2.liveness = Liveness.Live
      let c := p.2.mark_dead
      if is_live then some (p.1, c) else none) }

/-- The cell currently stored for a scope; model-level accessor used to
state theorems about map contents. -/
def Namespace.lookup [DecidableEq Scope] (ns : Namespace Scope Input Output)
    (key : Scope) : Option (CacheCell Input Output) :=
  (ns.inner.find? (fun p => decide (p.1 = key))).map Prod.snd

/-- One cache operation, used to state scenarios with intervening activity
on other scopes. -/
inductive Op (Scope Input Output : Type) where
  | opGet (key : Scope) (input : Input) (dep : Dependent) (freshId : Nat)
  | opStore (miss : KeyMiss Scope) (input : Input) (output : Output)

/-- Whether an operation touches the given scope. -/
def Op.touches (op : Op Scope Input Output) (s : Scope) : Prop :=
  match op with
  | .opGet k _ _ _ => k = s
  | .opStore m _ _ => m.key = s

/-- Run one operation against the namespace: a `get`'s interior mutation, a
successful `store`'s update; a panicking `store` mutates nothing. -/
def Namespace.applyOp [DecidableEq Scope] [DecidableEq Input]
    (ns : Namespace Scope Input Output) :
    Op Scope Input Output → Namespace Scope Input Output
  | .opGet k i d fid => (ns.get k i d fid 0).2.1
  | .opStore m i o =>
    match (ns.store m i o 0).1 with
    | Except.ok ns1 => ns1
    | Except.error _ => ns

/-- Run a sequence of operations left to right. -/
def Namespace.applyOps [DecidableEq Scope] [DecidableEq Input]
    (ns : Namespace Scope Input Output) (ops : List (Op Scope Input Output)) :
    Namespace Scope Input Output :=
  ops.foldl Namespace.applyOp ns

/-- Every cell stored under the given scope is currently `Dead`; the map
state from which one mark+sweep pair evicts the scope. -/
def Namespace.deadAt [DecidableEq Scope] (ns : Namespace Scope Input Output)
    (s : Scope) : Prop :=
  ∀ p ∈ ns.inner, p.1 = s → p.2.liveness = Liveness.Dead

/-! Concrete fixtures for witnesses and counterexamples. -/

/-- The default dependent handle of an external caller. -/
def dep0 : Dependent := { target := none }

/-- A dependency node with identity 0 and no recorded dependents. -/
def node0 : DepNode := { id := 0, dependents := [] }

/-- A cell proven live this pass. -/
def cellLive : CacheCell Nat Nat :=
  { input := 5, output := 7, liveness := Liveness.Live, node := node0 }

/-- A cell at the dead baseline. -/
def cellDead : CacheCell Nat Nat :=
  { input := 3, output := 4, liveness := Liveness.Dead,
    node := { id := 1, dependents := [] } }

/-- An empty namespace over `Nat` scopes, inputs and outputs, hashing a key
to itself. -/
def nsEmpty : Namespace Nat Nat Nat :=
  { hashFn := fun n => n, inner := [] }

/-- A namespace holding one live and one dead cell. -/
def nsEx : Namespace Nat Nat Nat :=
  { hashFn := fun n => n, inner := [(1, cellLive), (2, cellDead)] }

/-- A namespace holding a single dead cell for scope 1 with input 5. -/
def nsOne : Namespace Nat Nat Nat :=
  { hashFn := fun n => n,
    inner := [(1, { input := 5, output := 7, liveness := Liveness.Dead,
                    node := node0 })] }

/-- The stale miss that `get 1 6` produces on `nsOne` (whose cell stores
input 5): no fresh node, and the cell's own dependent. -/
def missStale : KeyMiss Nat :=
  KeyMiss.hashed { key := 1, hash := 1 } none node0.as_dependent

/-- The fresh miss that `get 1 5` (with fresh id 0) produces on the empty
namespace. -/
def missFresh : KeyMiss Nat :=
  KeyMiss.hashed { key := 1, hash := 1 } (some ((DepNode.new 0).root dep0))
    ((DepNode.new 0).root dep0).as_dependent

/-- The namespace obtained by storing `(1, 5, 7)` into the empty namespace
through `missFresh`. -/
def nsStored : Namespace Nat Nat Nat :=
  { hashFn := fun n => n,
    inner := [(1, CacheCell.new 5 7 ((DepNode.new 0).root dep0))] }

/-- A node-less miss targeting scope 1, as produced by a stale-input `get`
passing the default dependent along. -/
def missRefresh : KeyMiss Nat :=
  KeyMiss.hashed { key := 1, hash := 1 } none dep0

/-- The namespace `nsEx` after refreshing scope 1 to `(5, 9)`. -/
def nsEx2 : Namespace Nat Nat Nat :=
  nsEx.setCell 1 (cellLive.store 5 9 dep0)

/-! Helper lemmas relating the operations to `lookup` views of the map. -/

theorem find?_some_fst [DecidableEq Scope]
    {l : List (Scope × CacheCell Input Output)} {key : Scope}
    {p : Scope × CacheCell Input Output}
    (h : l.find? (fun q => decide (q.1 = key)) = some p) : p.1 = key := by
  have := List.find?_some h
  simpa using this

theorem lookup_find? [DecidableEq Scope] {ns : Namespace Scope Input Output}
    {key : Scope} {cell : CacheCell Input Output}
    (h : ns.lookup key = some cell) :
    ns.inner.find? (fun q => decide (q.1 = key)) = some (key, cell) := by
  unfold Namespace.lookup at h
  cases hf : ns.inner.find? (fun q => decide (q.1 = key)) with
  | none => rw [hf] at h; simp at h
  | some p =>
    rw [hf] at h
    simp at h
    have hp := find?_some_fst hf
    obtain ⟨a, c⟩ := p
    simp at hp h
    rw [hp, h]

theorem lookup_none_find? [DecidableEq Scope] {ns : Namespace Scope Input Output}
    {key : Scope} (h : ns.lookup key = none) :
    ns.inner.find? (fun q => decide (q.1 = key)) = none := by
  unfold Namespace.lookup at h
  cases hf : ns.inner.find? (fun q => decide (q.1 = key)) with
  | none => rfl
  | some p => rw [hf] at h; simp at h

/-- What `Namespace::get` computes, phrased over the `lookup` view of the
map: a hit registers the dependent and revives the cell, a stale input
yields a node-less miss carrying the cell's own dependent, an absent scope
yields a miss carrying a fresh rooted node; the key is hashed exactly
once in every branch. -/
theorem get_spec [DecidableEq Scope] [DecidableEq Input]
    (ns : Namespace Scope Input Output) (key : Scope) (input : Input)
    (dependent : Dependent) (freshId calls : Nat) :
    ns.get key input dependent freshId calls =
      match ns.lookup key with
      | some cell =>
        if input = cell.input then
          (Except.ok cell.output,
           ns.setCell key
             { cell with liveness := Liveness.Live,
                         node := cell.node.root dependent },
           calls + 1)
        else
          (Except.error (KeyMiss.hashed { key := key, hash := ns.hashFn key }
              none cell.node.as_dependent),
           ns, calls + 1)
      | none =>
        (Except.error (KeyMiss.hashed { key := key, hash := ns.hashFn key }
            (some ((DepNode.new freshId).root dependent))
            ((DepNode.new freshId).root dependent).as_dependent),
         ns, calls + 1) := by
  simp only [Namespace.get, Namespace.lookup, Namespace.entry, Namespace.hashed]
  cases hf : ns.inner.find? (fun q => decide (q.1 = key)) with
  | none => simp [hf]
  | some p =>
    obtain ⟨a, cell⟩ := p
    have ha : a = key := find?_some_fst hf
    subst ha
    by_cases hi : input = cell.input <;>
      simp [hf, CacheCell.get, hi]

/-- What `Namespace::store` computes, phrased over the `lookup` view of the
map: an occupied slot asserts the miss carries no fresh node then overwrites
the cell in place, a vacant slot inserts a new cell owning the miss's node
and panics when there is none.  The hash counter grows by the probe recovery
(one invocation exactly when the miss carries a bare key) plus one more for
the rehash hashbrown's vacant `insert` performs; the expect panic fires
during argument evaluation, before that rehash. -/
theorem store_spec [DecidableEq Scope]
    (ns : Namespace Scope Input Output) (miss : KeyMiss Scope)
    (input : Input) (output : Output) (calls : Nat) :
    ns.store miss input output calls =
      match ns.lookup miss.key, miss.node with
      | some cell, some _ =>
        (Except.error StorePanic.assertNodeUnused, calls + miss.probeHashes)
      | some cell, none =>
        (Except.ok (ns.setCell miss.key (cell.store input output miss.dependent)),
         calls + miss.probeHashes)
      | none, some node =>
        (Except.ok { ns with
            inner := ns.inner ++ [(miss.key, CacheCell.new input output node)] },
         calls + miss.probeHashes + 1)
      | none, none =>
        (Except.error StorePanic.expectFreshNode, calls + miss.probeHashes) := by
  obtain ⟨inner, dependent, node⟩ := miss
  cases inner with
  | ok h =>
    simp only [Namespace.store, Namespace.lookup, Namespace.entry,
      Namespace.hashed, KeyMiss.key, KeyMiss.probeHashes]
    cases hf : ns.inner.find? (fun q => decide (q.1 = h.key)) with
    | none => cases node <;> simp [hf]
    | some p =>
      obtain ⟨a, cell⟩ := p
      have ha : a = h.key := find?_some_fst hf
      subst ha
      cases node <;> simp [hf]
  | error k =>
    simp only [Namespace.store, Namespace.lookup, Namespace.entry,
      Namespace.hashed, KeyMiss.key, KeyMiss.probeHashes]
    cases hf : ns.inner.find? (fun q => decide (q.1 = k)) with
    | none => cases node <;> simp [hf]
    | some p =>
      obtain ⟨a, cell⟩ := p
      have ha : a = k := find?_some_fst hf
      subst ha
      cases node <;> simp [hf]

theorem find?_map_set_self [DecidableEq Scope]
    {l : List (Scope × CacheCell Input Output)} {key : Scope}
    {p : Scope × CacheCell Input Output} (c : CacheCell Input Output)
    (h : l.find? (fun q => decide (q.1 = key)) = some p) :
    (l.map (fun q => if q.1 = key then (q.1, c) else q)).find?
        (fun q => decide (q.1 = key)) = some (key, c) := by
  induction l with
  | nil => simp at h
  | cons a t ih =>
    by_cases ha : a.1 = key
    · simp [List.find?_cons, ha]
    · rw [List.find?_cons_of_neg _ (by simpa using ha)] at h
      simp only [List.map_cons, if_neg ha]
      rw [List.find?_cons_of_neg _ (by simpa using ha)]
      exact ih h

theorem find?_map_set_other [DecidableEq Scope]
    {l : List (Scope × CacheCell Input Output)} {key b : Scope}
    (c : CacheCell Input Output) (hne : b ≠ key) :
    (l.map (fun q => if q.1 = key then (q.1, c) else q)).find?
        (fun q => decide (q.1 = b)) =
      l.find? (fun q => decide (q.1 = b)) := by
  induction l with
  | nil => rfl
  | cons a t ih =>
    by_cases hb : a.1 = b
    · have hak : ¬ a.1 = key := fun h => hne (hb.symm.trans h)
      simp only [List.map_cons, if_neg hak]
      rw [List.find?_cons_of_pos _ (by simpa using hb),
        List.find?_cons_of_pos _ (by simpa using hb)]
    · by_cases hak : a.1 = key
      · simp only [List.map_cons, if_pos hak]
        rw [List.find?_cons_of_neg _ (by simpa using hb),
          List.find?_cons_of_neg _ (by simpa using hb)]
        exact ih
      · simp only [List.map_cons, if_neg hak]
        rw [List.find?_cons_of_neg _ (by simpa using hb),
          List.find?_cons_of_neg _ (by simpa using hb)]
        exact ih

theorem find?_append_none {α : Type} {l1 l2 : List α} {p : α → Bool}
    (h : l1.find? p = none) : (l1 ++ l2).find? p = l2.find? p := by
  induction l1 with
  | nil => rfl
  | cons a t ih =>
    by_cases ha : p a = true
    · rw [List.find?_cons_of_pos _ ha] at h; exact absurd h (by simp)
    · rw [List.find?_cons_of_neg _ ha] at h
      rw [List.cons_append, List.find?_cons_of_neg _ ha]
      exact ih h

theorem lookup_setCell_self [DecidableEq Scope]
    {ns : Namespace Scope Input Output} {key : Scope}
    {cell : CacheCell Input Output} (c : CacheCell Input Output)
    (h : ns.lookup key = some cell) :
    (ns.setCell key c).lookup key = some c := by
  unfold Namespace.lookup Namespace.setCell
  rw [find?_map_set_self c (lookup_find? h)]
  rfl

theorem lookup_setCell_other [DecidableEq Scope]
    {ns : Namespace Scope Input Output} {key b : Scope}
    (c : CacheCell Input Output) (hne : b ≠ key) :
    (ns.setCell key c).lookup b = ns.lookup b := by
  unfold Namespace.lookup Namespace.setCell
  rw [find?_map_set_other c hne]

theorem lookup_append_self [DecidableEq Scope]
    {ns : Namespace Scope Input Output} {key : Scope}
    (c : CacheCell Input Output) (h : ns.lookup key = none) :
    ({ ns with inner := ns.inner ++ [(key, c)] } :
        Namespace Scope Input Output).lookup key = some c := by
  unfold Namespace.lookup
  rw [find?_append_none (lookup_none_find? h)]
  simp

theorem lookup_append_other [DecidableEq Scope]
    {ns : Namespace Scope Input Output} {key b : Scope}
    (c : CacheCell Input Output) (hne : b ≠ key) :
    ({ ns with inner := ns.inner ++ [(key, c)] } :
        Namespace Scope Input Output).lookup b = ns.lookup b := by
  unfold Namespace.lookup
  cases hf : ns.inner.find? (fun q => decide (q.1 = b)) with
  | none =>
    rw [find?_append_none hf]
    simp [(Ne.symm hne : ¬ key = b)]
  | some p =>
    have : (ns.inner ++ [(key, c)]).find? (fun q => decide (q.1 = b)) = some p := by
      rw [List.find?_append]
      simp [hf]
    rw [this]

theorem update_liveness_dead {c : CacheCell Input Output}
    (h : c.liveness = Liveness.Dead) :
    c.update_liveness.liveness = Liveness.Dead := by
  simp [CacheCell.update_liveness, h]

theorem deadAt_mark [DecidableEq Scope] {ns : Namespace Scope Input Output}
    {s : Scope} (h : ns.deadAt s) : (ns.mark).deadAt s := by
  intro p hp hps
  simp only [Namespace.mark, List.mem_map] at hp
  obtain ⟨q, hq, rfl⟩ := hp
  exact update_liveness_dead (h q hq hps)

theorem deadAt_setCell_dead [DecidableEq Scope]
    (ns : Namespace Scope Input Output) {s : Scope} {c : CacheCell Input Output}
    (h : c.liveness = Liveness.Dead) (hd : ns.deadAt s) :
    (ns.setCell s c).deadAt s := by
  intro p hp hps
  simp only [Namespace.setCell, List.mem_map] at hp
  obtain ⟨q, hq, rfl⟩ := hp
  by_cases hqs : q.1 = s
  · simp [hqs, h]
  · simp only [if_neg hqs]
    exact hd q hq (by simpa [hqs] using hps)

theorem deadAt_setCell_other [DecidableEq Scope]
    {ns : Namespace Scope Input Output} {s k : Scope} {c : CacheCell Input Output}
    (h : ns.deadAt s) (hne : k ≠ s) : (ns.setCell k c).deadAt s := by
  intro p hp hps
  simp only [Namespace.setCell, List.mem_map] at hp
  obtain ⟨q, hq, rfl⟩ := hp
  by_cases hqk : q.1 = k
  · exact absurd (by simpa [hqk] using hps) hne
  · simp only [if_neg hqk]
    exact h q hq (by simpa [hqk] using hps)

theorem deadAt_store [DecidableEq Scope] {ns ns1 : Namespace Scope Input Output}
    {miss : KeyMiss Scope} {input : Input} {output : Output} {calls : Nat}
    (h : (ns.store miss input output calls).1 = Except.ok ns1) :
    ns1.deadAt miss.key := by
  rw [store_spec] at h
  cases hl : ns.lookup miss.key with
  | some cell =>
    cases hn : miss.node with
    | some n => rw [hl, hn] at h; simp at h
    | none =>
      rw [hl, hn] at h
      simp only [Except.ok.injEq] at h
      subst h
      intro p hp hps
      simp only [Namespace.setCell, List.mem_map] at hp
      obtain ⟨q, hq, rfl⟩ := hp
      by_cases hqs : q.1 = miss.key
      · simp [hqs, CacheCell.store]
      · exact absurd (by simpa [hqs] using hps) hqs
  | none =>
    cases hn : miss.node with
    | none => rw [hl, hn] at h; simp at h
    | some n =>
      rw [hl, hn] at h
      simp only [Except.ok.injEq] at h
      subst h
      intro p hp hps
      simp only [List.mem_append, List.mem_singleton] at hp
      cases hp with
      | inl hmem =>
        have := lookup_none_find? hl
        rw [List.find?_eq_none] at this
        exact absurd (by simpa using hps) (by simpa using this p hmem)
      | inr heq => rw [heq]; rfl

theorem deadAt_applyOp [DecidableEq Scope] [DecidableEq Input]
    {ns : Namespace Scope Input Output} {s : Scope} {op : Op Scope Input Output}
    (h : ns.deadAt s) (ht : ¬ op.touches s) : (ns.applyOp op).deadAt s := by
  cases op with
  | opGet k i d fid =>
    have hks : k ≠ s := ht
    simp only [Namespace.applyOp]
    rw [get_spec]
    cases hl : ns.lookup k with
    | none => exact h
    | some cell =>
      by_cases hi : i = cell.input
      · simp only [if_pos hi]
        exact deadAt_setCell_other h hks
      · simp only [if_neg hi]
        exact h
  | opStore m i o =>
    have hks : m.key ≠ s := ht
    simp only [Namespace.applyOp]
    cases hst : (ns.store m i o 0).1 with
    | error e => exact h
    | ok ns1 =>
      rw [store_spec] at hst
      cases hl : ns.lookup m.key with
      | some cell =>
        cases hn : m.node with
        | some n => rw [hl, hn] at hst; simp at hst
        | none =>
          rw [hl, hn] at hst
          simp only [Except.ok.injEq] at hst
          subst hst
          exact deadAt_setCell_other h hks
      | none =>
        cases hn : m.node with
        | none => rw [hl, hn] at hst; simp at hst
        | some n =>
          rw [hl, hn] at hst
          simp only [Except.ok.injEq] at hst
          subst hst
          intro p hp hps
          simp only [List.mem_append, List.mem_singleton] at hp
          cases hp with
          | inl hmem => exact h p hmem hps
          | inr heq =>
            rw [heq] at hps
            exact absurd hps hks

theorem deadAt_applyOps [DecidableEq Scope] [DecidableEq Input]
    {s : Scope} {ops : List (Op Scope Input Output)}
    (ht : ∀ op ∈ ops, ¬ op.touches s) :
    ∀ {ns : Namespace Scope Input Output}, ns.deadAt s →
      (ns.applyOps ops).deadAt s := by
  induction ops with
  | nil => intro ns h; exact h
  | cons op rest ih =>
    intro ns h
    have h1 : (ns.applyOp op).deadAt s :=
      deadAt_applyOp h (ht op (List.mem_cons_self op rest))
    exact ih (fun o ho => ht o (List.mem_cons_of_mem op ho)) h1

theorem lookup_sweep_none [DecidableEq Scope]
    {ns : Namespace Scope Input Output} {s : Scope} (h : ns.deadAt s) :
    (ns.sweep).lookup s = none := by
  unfold Namespace.lookup
  have hnone : (ns.sweep).inner.find? (fun p => decide (p.1 = s)) = none := by
    rw [List.find?_eq_none]
    intro p hp
    simp only [Namespace.sweep, List.mem_filterMap] at hp
    obtain ⟨q, hq, hfq⟩ := hp
    by_cases hl : q.2.liveness = Liveness.Live
    · simp only [if_pos hl] at hfq
      intro hps
      have hpe := Option.some.inj hfq
      rw [← hpe] at hps
      have hq1 : q.1 = s := by simpa using hps
      rw [h q hq hq1] at hl
      exact absurd hl (by simp)
    · simp [if_neg hl] at hfq
  rw [hnone]
  rfl

/-! Small projection lemmas for `KeyMiss`. -/

@[simp] theorem KeyMiss.key_hashed (h : Hashed Key) (n : Option DepNode)
    (d : Dependent) : (KeyMiss.hashed h n d).key = h.key := rfl

@[simp] theorem KeyMiss.node_hashed (h : Hashed Key) (n : Option DepNode)
    (d : Dependent) : (KeyMiss.hashed h n d).node = n := rfl

@[simp] theorem KeyMiss.dependent_hashed (h : Hashed Key) (n : Option DepNode)
    (d : Dependent) : (KeyMiss.hashed h n d).dependent = d := rfl

@[simp] theorem KeyMiss.inner_hashed (h : Hashed Key) (n : Option DepNode)
    (d : Dependent) : (KeyMiss.hashed h n d).inner = Except.ok h := rfl

@[simp] theorem KeyMiss.probeHashes_hashed (h : Hashed Key) (n : Option DepNode)
    (d : Dependent) : (KeyMiss.hashed h n d).probeHashes = 0 := rfl

/-! The claims. -/

/-- C1: Round trip — for every scope `s`, input `i` and output `o`, after a
`get(s, i, d)` that returns a `KeyMiss` and a `store` of that miss with
input `i` and output `o`, a subsequent `get(s, i, d2)` on the same namespace
returns `Except.ok o`. -/
theorem C1_round_trip [DecidableEq Scope] [DecidableEq Input]
    (ns : Namespace Scope Input Output) (s : Scope) (i : Input) (o : Output)
    (d d2 : Dependent) (fid fid2 c c2 c3 : Nat) (m : KeyMiss Scope)
    (hmiss : (ns.get s i d fid c).1 = Except.error m) :
    ∃ ns2, ((ns.get s i d fid c).2.1.store m i o c2).1 = Except.ok ns2 ∧
      (ns2.get s i d2 fid2 c3).1 = Except.ok o := by
  have hg := get_spec ns s i d fid c
  cases hl : ns.lookup s with
  | some cell =>
    simp only [hl] at hg
    by_cases hi : i = cell.input
    · rw [if_pos hi] at hg
      rw [hg] at hmiss
      exact absurd hmiss (by simp)
    · rw [if_neg hi] at hg
      have hm : KeyMiss.hashed { key := s, hash := ns.hashFn s } none
          cell.node.as_dependent = m := by
        have h1 := hmiss
        rw [hg] at h1
        exact Except.error.inj h1
      rw [hg, ← hm]
      have hst := store_spec ns (KeyMiss.hashed { key := s, hash := ns.hashFn s }
        none cell.node.as_dependent) i o c2
      simp only [KeyMiss.key_hashed, KeyMiss.node_hashed, KeyMiss.dependent_hashed,
        KeyMiss.inner_hashed, hl] at hst
      refine ⟨_, by rw [hst], ?_⟩
      rw [get_spec, lookup_setCell_self _ hl]
      simp [CacheCell.store]
  | none =>
    simp only [hl] at hg
    have hm : KeyMiss.hashed { key := s, hash := ns.hashFn s }
        (some ((DepNode.new fid).root d))
        ((DepNode.new fid).root d).as_dependent = m := by
      have h1 := hmiss
      rw [hg] at h1
      exact Except.error.inj h1
    rw [hg, ← hm]
    have hst := store_spec ns (KeyMiss.hashed { key := s, hash := ns.hashFn s }
      (some ((DepNode.new fid).root d))
      ((DepNode.new fid).root d).as_dependent) i o c2
    simp only [KeyMiss.key_hashed, KeyMiss.node_hashed, KeyMiss.dependent_hashed,
      KeyMiss.inner_hashed, hl] at hst
    refine ⟨_, by rw [hst], ?_⟩
    rw [get_spec, lookup_append_self _ hl]
    simp [CacheCell.new]

/-- C1 witness: the round trip on the empty namespace, storing 7 for scope 1
and input 5 through the fresh miss `get` returns there. -/
theorem C1_round_trip_w :
    ∃ ns2, ((nsEmpty.get 1 5 dep0 0 0).2.1.store missFresh 5 7 0).1 =
        Except.ok ns2 ∧
      (ns2.get 1 5 dep0 0 0).1 = Except.ok 7 :=
  C1_round_trip nsEmpty 1 5 7 dep0 dep0 0 0 0 0 0 missFresh (by decide)

/-- C4: Sweep postcondition — `sweep` retains exactly the cells whose
liveness is `Live` (each demoted by `mark_dead`), and every surviving cell
has liveness `Dead` immediately afterward. -/
theorem C4_sweep_postcondition (ns : Namespace Scope Input Output) :
    (∀ (s : Scope) (c : CacheCell Input Output),
        (s, c) ∈ (ns.sweep).inner ↔
          ∃ c0, (s, c0) ∈ ns.inner ∧ c0.liveness = Liveness.Live ∧
            c = c0.mark_dead) ∧
    (∀ p ∈ (ns.sweep).inner, p.2.liveness = Liveness.Dead) := by
  constructor
  · intro s c
    simp only [Namespace.sweep, List.mem_filterMap]
    constructor
    · rintro ⟨q, hq, hfq⟩
      by_cases hl : q.2.liveness = Liveness.Live
      · simp only [if_pos hl] at hfq
        have hqe := Option.some.inj hfq
        have h1 : q.1 = s := congrArg Prod.fst hqe
        have h2 : q.2.mark_dead = c := congrArg Prod.snd hqe
        refine ⟨q.2, ?_, hl, h2.symm⟩
        rw [← h1]
        exact hq
      · simp [if_neg hl] at hfq
    · rintro ⟨c0, hmem, hlive, rfl⟩
      exact ⟨(s, c0), hmem, by simp [hlive]⟩
  · intro p hp
    simp only [Namespace.sweep, List.mem_filterMap] at hp
    obtain ⟨q, hq, hfq⟩ := hp
    by_cases hl : q.2.liveness = Liveness.Live
    · simp only [if_pos hl] at hfq
      rw [← Option.some.inj hfq]
      rfl
    · simp [if_neg hl] at hfq

/-- C4 witness: on a namespace with one live and one dead cell, the live
cell survives the sweep demoted to `Dead`. -/
theorem C4_sweep_postcondition_w :
    (1, cellLive.mark_dead) ∈ (nsEx.sweep).inner ∧
    cellLive.mark_dead.liveness = Liveness.Dead :=
  ⟨((C4_sweep_postcondition nsEx).1 1 cellLive.mark_dead).mpr
      ⟨cellLive, by decide, by decide, rfl⟩,
    (C4_sweep_postcondition nsEx).2 (1, cellLive.mark_dead)
      (((C4_sweep_postcondition nsEx).1 1 cellLive.mark_dead).mpr
        ⟨cellLive, by decide, by decide, rfl⟩)⟩

/-- C6 counterexample: `store` does not abort only in the
occupied-slot-with-fresh-node case.  A miss produced by a stale-input `get`
(carrying no node), stored after the cell was swept away, hits a vacant slot
and panics through the `expect` on the miss's node — an abort outside the
case the claim calls the only one. -/
theorem C6_counterexample :
    (nsOne.get 1 6 dep0 3 0).1 = Except.error missStale ∧
    missStale.node = none ∧
    (nsOne.sweep).lookup 1 = none ∧
    ((nsOne.sweep).store missStale 6 8 0).1 =
      Except.error StorePanic.expectFreshNode := by
  refine ⟨rfl, rfl, rfl, rfl⟩

/-- C6 (amended): `store` asserts fatally exactly when the target slot is
occupied and the miss carries a freshly created node; its only other abort
is the `expect` panic when the slot is vacant and the miss carries no node. -/
theorem C6_store_abort_cases [DecidableEq Scope]
    (ns : Namespace Scope Input Output) (m : KeyMiss Scope) (i : Input)
    (o : Output) (c : Nat) :
    ((ns.store m i o c).1 = Except.error StorePanic.assertNodeUnused ↔
      (ns.lookup m.key).isSome = true ∧ m.node.isSome = true) ∧
    ((ns.store m i o c).1 = Except.error StorePanic.expectFreshNode ↔
      ns.lookup m.key = none ∧ m.node = none) := by
  rw [store_spec]
  cases ns.lookup m.key <;> cases m.node <;> simp

/-- C6 witness: on a namespace holding scope 1, storing through a miss that
carries a fresh node aborts through the debug assertion. -/
theorem C6_store_abort_cases_w :
    (nsOne.store missFresh 5 7 0).1 =
      Except.error StorePanic.assertNodeUnused :=
  ((C6_store_abort_cases nsOne missFresh 5 7 0).1).mpr (by decide)

/-- C10: for every `store` whose target slot is vacant but whose miss
carries no fresh node, `store` panics through the `expect` on the miss's
node instead of inserting an entry. -/
theorem C10_store_expect_panic [DecidableEq Scope]
    (ns : Namespace Scope Input Output) (m : KeyMiss Scope) (i : Input)
    (o : Output) (c : Nat)
    (hvac : ns.lookup m.key = none) (hnode : m.node = none) :
    (ns.store m i o c).1 = Except.error StorePanic.expectFreshNode := by
  rw [store_spec, hvac, hnode]

/-- C10 witness: the swept namespace and the node-less stale miss panic the
`expect`. -/
theorem C10_store_expect_panic_w :
    ((nsOne.sweep).store missStale 6 8 0).1 =
      Except.error StorePanic.expectFreshNode :=
  C10_store_expect_panic (nsOne.sweep) missStale 6 8 0 (by decide) (by decide)

/-! Projection lemmas for the spec-modelled cell constructors. -/

@[simp] theorem CacheCell.input_store (cl : CacheCell Input Output) (i : Input)
    (o : Output) (d : Dependent) : (cl.store i o d).input = i := rfl

@[simp] theorem CacheCell.output_store (cl : CacheCell Input Output) (i : Input)
    (o : Output) (d : Dependent) : (cl.store i o d).output = o := rfl

@[simp] theorem CacheCell.input_new (i : Input) (o : Output) (n : DepNode) :
    (CacheCell.new i o n : CacheCell Input Output).input = i := rfl

@[simp] theorem CacheCell.output_new (i : Input) (o : Output) (n : DepNode) :
    (CacheCell.new i o n : CacheCell Input Output).output = o := rfl

/-- C2: Staleness — a namespace holding `(s, i1, o1)` misses on input
`i2 ≠ i1`; storing `(s, i2, o2)` through that miss then makes `get(s, i1)` a
miss while `get(s, i2)` returns `o2`: each scope holds at most one live
input/output pair at a time. -/
theorem C2_staleness [DecidableEq Scope] [DecidableEq Input]
    (ns : Namespace Scope Input Output) (s : Scope)
    (cell : CacheCell Input Output) (i1 i2 : Input) (o1 o2 : Output)
    (d d1 d2 : Dependent) (fid fid1 fid2 c c1 c2 c3 : Nat)
    (hcell : ns.lookup s = some cell) (hi1 : cell.input = i1)
    (ho1 : cell.output = o1) (hne : i2 ≠ i1) :
    ∃ m ns2,
      (ns.get s i2 d fid c).1 = Except.error m ∧ m.node = none ∧
      ((ns.get s i2 d fid c).2.1.store m i2 o2 c1).1 = Except.ok ns2 ∧
      (∃ m1, (ns2.get s i1 d1 fid1 c2).1 = Except.error m1) ∧
      (ns2.get s i2 d2 fid2 c3).1 = Except.ok o2 := by
  subst hi1
  have hg := get_spec ns s i2 d fid c
  simp only [hcell, if_neg hne] at hg
  have hst := store_spec ns (KeyMiss.hashed { key := s, hash := ns.hashFn s }
    none cell.node.as_dependent) i2 o2 c1
  simp only [KeyMiss.key_hashed, KeyMiss.node_hashed, KeyMiss.dependent_hashed,
    KeyMiss.inner_hashed, hcell] at hst
  have hb2 := lookup_setCell_self (cell.store i2 o2 cell.node.as_dependent) hcell
  refine ⟨KeyMiss.hashed { key := s, hash := ns.hashFn s } none cell.node.as_dependent,
    ns.setCell s (cell.store i2 o2 cell.node.as_dependent),
    by rw [hg], rfl, by rw [hg, hst], ?_, ?_⟩
  · have hg2 := get_spec (ns.setCell s (cell.store i2 o2 cell.node.as_dependent))
      s cell.input d1 fid1 c2
    simp only [hb2, CacheCell.input_store] at hg2
    rw [if_neg (fun h => hne h.symm)] at hg2
    exact ⟨_, by rw [hg2]⟩
  · rw [get_spec]
    simp [hb2]

/-- C2 witness: refreshing scope 1 of `nsEx` from `(5, 7)` to `(6, 9)`
through the stale miss. -/
theorem C2_staleness_w :
    ∃ m ns2,
      (nsEx.get 1 6 dep0 0 0).1 = Except.error m ∧ m.node = none ∧
      ((nsEx.get 1 6 dep0 0 0).2.1.store m 6 9 0).1 = Except.ok ns2 ∧
      (∃ m1, (ns2.get 1 5 dep0 0 0).1 = Except.error m1) ∧
      (ns2.get 1 6 dep0 0 0).1 = Except.ok 9 :=
  C2_staleness nsEx 1 cellLive 5 6 7 9 dep0 dep0 dep0 0 0 0 0 0 0 0
    (by decide) (by decide) (by decide) (by decide)

/-- C3: Collection of the unused — after a successful `store` for a scope,
one `mark()` then `sweep()` with no intervening operation touching that
scope leaves the scope absent from the namespace, and a subsequent `get`
on it returns a `KeyMiss`. -/
theorem C3_collection_of_unused [DecidableEq Scope] [DecidableEq Input]
    (ns ns1 : Namespace Scope Input Output) (m : KeyMiss Scope)
    (i i1 : Input) (o : Output) (c c1 fid : Nat) (d : Dependent)
    (ops : List (Op Scope Input Output))
    (hstore : (ns.store m i o c).1 = Except.ok ns1)
    (hops : ∀ op ∈ ops, ¬ op.touches m.key) :
    (((ns1.applyOps ops).mark).sweep).lookup m.key = none ∧
    ∃ m1, ((((ns1.applyOps ops).mark).sweep).get m.key i1 d fid c1).1 =
      Except.error m1 := by
  have hdead : ns1.deadAt m.key := deadAt_store hstore
  have hdead2 := deadAt_applyOps hops hdead
  have hdead3 := deadAt_mark hdead2
  have hnone := lookup_sweep_none hdead3
  refine ⟨hnone, ?_⟩
  have hg := get_spec (((ns1.applyOps ops).mark).sweep) m.key i1 d fid c1
  simp only [hnone] at hg
  exact ⟨_, by rw [hg]⟩

/-- C3 witness: store `(1, 5, 7)` into the empty namespace, run one
mark+sweep with no other activity; scope 1 is gone and misses. -/
theorem C3_collection_of_unused_w :
    (((nsStored.applyOps []).mark).sweep).lookup missFresh.key = none ∧
    ∃ m1, ((((nsStored.applyOps []).mark).sweep).get missFresh.key 5 dep0 0 0).1 =
      Except.error m1 :=
  C3_collection_of_unused nsEmpty nsStored missFresh 5 5 7 0 0 0 dep0 []
    (by rfl) (by simp)

/-- C5: Identity stability — a stale-input `get` on a present scope returns
a miss carrying no new node and the cell's own dependent, leaves the map
untouched, and a `store` through that miss overwrites input and output while
keeping the cell's `DepNode` identity. -/
theorem C5_identity_stability [DecidableEq Scope] [DecidableEq Input]
    (ns : Namespace Scope Input Output) (s : Scope)
    (cell : CacheCell Input Output) (i2 : Input) (o2 : Output)
    (d : Dependent) (fid c c1 : Nat)
    (hcell : ns.lookup s = some cell) (hne : i2 ≠ cell.input) :
    ∃ m ns2 cell2,
      (ns.get s i2 d fid c).1 = Except.error m ∧
      m.node = none ∧
      m.dependent = cell.node.as_dependent ∧
      (ns.get s i2 d fid c).2.1 = ns ∧
      (ns.store m i2 o2 c1).1 = Except.ok ns2 ∧
      ns2.lookup s = some cell2 ∧
      cell2.node.id = cell.node.id ∧
      cell2.input = i2 ∧ cell2.output = o2 := by
  have hg := get_spec ns s i2 d fid c
  simp only [hcell, if_neg hne] at hg
  have hst := store_spec ns (KeyMiss.hashed { key := s, hash := ns.hashFn s }
    none cell.node.as_dependent) i2 o2 c1
  simp only [KeyMiss.key_hashed, KeyMiss.node_hashed, KeyMiss.dependent_hashed,
    KeyMiss.inner_hashed, hcell] at hst
  exact ⟨KeyMiss.hashed { key := s, hash := ns.hashFn s } none cell.node.as_dependent,
    ns.setCell s (cell.store i2 o2 cell.node.as_dependent),
    cell.store i2 o2 cell.node.as_dependent,
    by rw [hg], rfl, rfl, by rw [hg], by rw [hst],
    lookup_setCell_self _ hcell, rfl, rfl, rfl⟩

/-- C5 witness: the stale miss on `nsEx` for scope 1 and input 6, stored
with output 9, keeps the cell's node identity. -/
theorem C5_identity_stability_w :
    ∃ m ns2 cell2,
      (nsEx.get 1 6 dep0 0 0).1 = Except.error m ∧
      m.node = none ∧
      m.dependent = cellLive.node.as_dependent ∧
      (nsEx.get 1 6 dep0 0 0).2.1 = nsEx ∧
      (nsEx.store m 6 9 0).1 = Except.ok ns2 ∧
      ns2.lookup 1 = some cell2 ∧
      cell2.node.id = cellLive.node.id ∧
      cell2.input = 6 ∧ cell2.output = 9 :=
  C5_identity_stability nsEx 1 cellLive 6 9 dep0 0 0 0 (by decide) (by decide)

/-- C7 counterexample: a fresh-miss-then-store cycle hashes the key twice,
not once.  On the empty namespace, `get 1` hashes once (counter 1), and
storing through the returned fresh miss takes the vacant arm, where
hashbrown's `RawVacantEntryMut::insert` (namespace.rs line 141, plain
`insert`, not `insert_hashed_nocheck`) rehashes the key before inserting
(counter 2). -/
theorem C7_counterexample :
    (nsEmpty.get 1 5 dep0 0 0).1 = Except.error missFresh ∧
    (nsEmpty.get 1 5 dep0 0 0).2.2 = 1 ∧
    ((nsEmpty.get 1 5 dep0 0 0).2.1.store missFresh 5 7
      ((nsEmpty.get 1 5 dep0 0 0).2.2)).2 = 2 :=
  ⟨rfl, rfl, rfl⟩

/-- C7 (amended): across one miss-then-store cycle for the same key, `get`
hashes the key exactly once and `store`'s re-probe reuses the hash carried
in the miss instead of rehashing, so a stale miss (occupied slot) completes
the cycle with exactly one hash invocation; a fresh miss (vacant slot)
incurs one further hash from hashbrown's vacant insert, for a total of
two. -/
theorem C7_hash_reuse_amended [DecidableEq Scope] [DecidableEq Input]
    (ns : Namespace Scope Input Output) (s : Scope) (i i2 : Input)
    (o : Output) (d : Dependent) (fid : Nat) (m : KeyMiss Scope)
    (hmiss : (ns.get s i d fid 0).1 = Except.error m) :
    (ns.get s i d fid 0).2.2 = 1 ∧
    ((ns.lookup s).isSome = true →
      ((ns.get s i d fid 0).2.1.store m i2 o ((ns.get s i d fid 0).2.2)).2 = 1) ∧
    (ns.lookup s = none →
      ((ns.get s i d fid 0).2.1.store m i2 o ((ns.get s i d fid 0).2.2)).2 = 2) := by
  have hg := get_spec ns s i d fid 0
  cases hl : ns.lookup s with
  | some cell =>
    simp only [hl] at hg
    by_cases hi : i = cell.input
    · rw [if_pos hi] at hg
      rw [hg] at hmiss
      exact absurd hmiss (by simp)
    · rw [if_neg hi] at hg
      have hm : KeyMiss.hashed { key := s, hash := ns.hashFn s } none
          cell.node.as_dependent = m := by
        have h1 := hmiss
        rw [hg] at h1
        exact Except.error.inj h1
      rw [hg, ← hm]
      exact ⟨rfl, fun _ => by simp [store_spec, hl],
        fun h => Option.noConfusion h⟩
  | none =>
    simp only [hl] at hg
    have hm : KeyMiss.hashed { key := s, hash := ns.hashFn s }
        (some ((DepNode.new fid).root d))
        ((DepNode.new fid).root d).as_dependent = m := by
      have h1 := hmiss
      rw [hg] at h1
      exact Except.error.inj h1
    rw [hg, ← hm]
    exact ⟨rfl, fun h => absurd h (by simp),
      fun _ => by simp [store_spec, hl]⟩

/-- C7 witness: the fresh-miss cycle for key 1 on the empty namespace hashes
once in `get` and once more in the vacant insert. -/
theorem C7_hash_reuse_amended_w :
    (nsEmpty.get 1 5 dep0 0 0).2.2 = 1 ∧
    ((nsEmpty.get 1 5 dep0 0 0).2.1.store missFresh 5 7
      ((nsEmpty.get 1 5 dep0 0 0).2.2)).2 = 2 :=
  ⟨(C7_hash_reuse_amended nsEmpty 1 5 5 7 dep0 0 missFresh (by decide)).1,
   (C7_hash_reuse_amended nsEmpty 1 5 5 7 dep0 0 missFresh (by decide)).2.2
     (by decide)⟩

/-- C8: a `get` on a key with no existing entry returns a miss carrying a
freshly allocated node rooted under the caller-supplied dependent, together
with a dependent derived from that fresh node rather than the caller's
own. -/
theorem C8_fresh_miss_rooted [DecidableEq Scope] [DecidableEq Input]
    (ns : Namespace Scope Input Output) (s : Scope) (i : Input)
    (d : Dependent) (fid c : Nat)
    (habs : ns.lookup s = none) (hd : d.target ≠ some fid) :
    ∃ m, (ns.get s i d fid c).1 = Except.error m ∧
      m.node = some ((DepNode.new fid).root d) ∧
      ((DepNode.new fid).root d).dependents = [d] ∧
      ((DepNode.new fid).root d).id = fid ∧
      m.dependent = ((DepNode.new fid).root d).as_dependent ∧
      m.dependent ≠ d := by
  have hg := get_spec ns s i d fid c
  simp only [habs] at hg
  refine ⟨KeyMiss.hashed { key := s, hash := ns.hashFn s }
    (some ((DepNode.new fid).root d)) ((DepNode.new fid).root d).as_dependent,
    by rw [hg], rfl, rfl, rfl, rfl, ?_⟩
  intro h
  exact hd (by rw [← h]; rfl)

/-- C8 witness: the first lookup of key 1 on the empty namespace, with fresh
id 0 and the default dependent. -/
theorem C8_fresh_miss_rooted_w :
    ∃ m, (nsEmpty.get 1 5 dep0 0 0).1 = Except.error m ∧
      m.node = some ((DepNode.new 0).root dep0) ∧
      ((DepNode.new 0).root dep0).dependents = [dep0] ∧
      ((DepNode.new 0).root dep0).id = 0 ∧
      m.dependent = ((DepNode.new 0).root dep0).as_dependent ∧
      m.dependent ≠ dep0 :=
  C8_fresh_miss_rooted nsEmpty 1 5 dep0 0 0 (by decide) (by decide)

/-- C9: Multi-scope independence — with scopes `a` and `b ≠ a` both present,
a `store` refreshing `a` leaves `b`'s cell unchanged: `get` on `b` returns
the same output after as before. -/
theorem C9_multi_scope_independence [DecidableEq Scope] [DecidableEq Input]
    (ns ns2 : Namespace Scope Input Output) (m : KeyMiss Scope)
    (i : Input) (o : Output) (b : Scope)
    (cella cellb : CacheCell Input Output) (d d1 : Dependent)
    (fid fid1 c c1 c2 : Nat)
    (ha : ns.lookup m.key = some cella)
    (hb : ns.lookup b = some cellb)
    (hne : b ≠ m.key)
    (hstore : (ns.store m i o c).1 = Except.ok ns2) :
    ns2.lookup b = some cellb ∧
    (ns2.get b cellb.input d fid c1).1 = Except.ok cellb.output ∧
    (ns.get b cellb.input d1 fid1 c2).1 = Except.ok cellb.output := by
  have hst := store_spec ns m i o c
  cases hn : m.node with
  | some n =>
    simp only [ha, hn] at hst
    rw [hst] at hstore
    exact absurd hstore (by simp)
  | none =>
    simp only [ha, hn] at hst
    rw [hst] at hstore
    have hns2 : ns.setCell m.key (cella.store i o m.dependent) = ns2 :=
      Except.ok.inj hstore
    subst hns2
    have hb2 : (ns.setCell m.key (cella.store i o m.dependent)).lookup b =
        some cellb := (lookup_setCell_other _ hne).trans hb
    refine ⟨hb2, ?_, ?_⟩
    · rw [get_spec]
      simp [hb2]
    · rw [get_spec]
      simp [hb]

/-- C9 witness: refreshing scope 1 of `nsEx` to `(5, 9)` leaves scope 2's
cell and lookups untouched. -/
theorem C9_multi_scope_independence_w :
    nsEx2.lookup 2 = some cellDead ∧
    (nsEx2.get 2 cellDead.input dep0 0 0).1 = Except.ok cellDead.output ∧
    (nsEx.get 2 cellDead.input dep0 0 0).1 = Except.ok cellDead.output :=
  C9_multi_scope_independence nsEx nsEx2 missRefresh 5 9 2 cellLive cellDead
    dep0 dep0 0 0 0 0 0 (by decide) (by decide) (by decide) (by rfl)

end DynCache
